import Mathlib

/-!
Verification of the product-review canister (src/index.ts) against its
natural-language specification.  The TypeScript source is shallowly
embedded: JavaScript numbers are modelled as rationals together with a
NaN element, the stable B-tree map as an association list with
point-lookup, upsert and removal, and every exported canister method as
an explicit state-passing function returning a call outcome together
with the post-state of the store.  A thrown JavaScript Error is
modelled as a `fault` outcome, distinct from the recoverable
Result.Err channel (`err`).
-/

namespace ProductReview

/-- JavaScript numbers as used by the source: a rational value or NaN.
(The source never produces infinities on the paths modelled here:
ratings are caller-supplied finite numbers or NaN, and the only
division is by a nonzero list length.) -/
inductive JSNum where
  | nan : JSNum
  | num : ℚ → JSNum
deriving DecidableEq, Repr

/-- JavaScript numeric comparison a < b: false whenever either side is NaN. -/
def JSNum.ltb : JSNum → JSNum → Bool
  | .num a, .num b => decide (a < b)
  | _, _ => false

/-- JavaScript numeric comparison a > b: false whenever either side is NaN. -/
def JSNum.gtb : JSNum → JSNum → Bool
  | .num a, .num b => decide (a > b)
  | _, _ => false

/-- JavaScript addition: NaN propagates. -/
def JSNum.add : JSNum → JSNum → JSNum
  | .num a, .num b => .num (a + b)
  | _, _ => .nan

/-- JavaScript division as exercised by the source (the divisor there is
a positive list length, so the division-by-zero case is never hit). -/
def JSNum.div : JSNum → JSNum → JSNum
  | .num a, .num b => if b = 0 then .nan else .num (a / b)
  | _, _ => .nan

/-- Rounding to two decimal places as performed by
parseFloat(x.toFixed(2)): the integer n minimising the distance of
n / 100 to x, ties resolved towards the larger n. -/
def toFixed2 (q : ℚ) : ℚ := ((Int.floor (q * 100 + 1 / 2) : ℚ)) / 100

/-- parseFloat(x.toFixed(2)) lifted to JavaScript numbers:
NaN.toFixed(2) yields the string NaN, which parseFloat maps back to NaN. -/
def jsToFixed2 : JSNum → JSNum
  | .nan => .nan
  | .num q => .num (toFixed2 q)

/-- The Product record of the source.  nat64 timestamps are modelled as
naturals (the source performs no arithmetic on them). -/
structure Product where
  id : String
  name : String
  description : String
  URL : String
  Ratings : List JSNum
  created_at : ℕ
  updated_at : Option ℕ
deriving DecidableEq, Repr

/-- The ProductPayload record of the source. -/
structure ProductPayload where
  name : String
  description : String
  URL : String
deriving DecidableEq, Repr

/-- The stable map productStorage, modelled as an association list from
string ids to products (insertion from the empty store keeps keys
unique, mirroring the map semantics). -/
abbrev Store := List (String × Product)

/-- productStorage.get: point lookup of the first binding of the key. -/
def storeGet : Store → String → Option Product
  | [], _ => none
  | (k, v) :: rest, id => if k = id then some v else storeGet rest id

/-- productStorage.insert: unconditional upsert under the given key. -/
def storeInsert : Store → String → Product → Store
  | [], id, p => [(id, p)]
  | (k, v) :: rest, id, p =>
      if k = id then (id, p) :: rest else (k, v) :: storeInsert rest id p

/-- productStorage.remove: deletes the binding of the key if present and
returns the new store together with the removed value. -/
def storeRemove : Store → String → Store × Option Product
  | [], _ => ([], none)
  | (k, v) :: rest, id =>
      if k = id then (rest, some v)
      else ((k, v) :: (storeRemove rest id).1, (storeRemove rest id).2)

/-- Outcome of one canister call: a returned Result.Ok value, a
returned recoverable Result.Err message, or a thrown Error (a fault
that aborts the call). -/
inductive CallResult (α : Type) where
  | ok : α → CallResult α
  | err : String → CallResult α
  | fault : String → CallResult α
deriving DecidableEq, Repr

/-- The NotFound message produced by getProduct, calculateAverageRating,
updateProduct and deleteProduct for a missing id. -/
def notFoundMsg (id : String) : String := "Product with id=" ++ id ++ " not found"

/-- validateRating of the source: throws (Except.error) exactly when the
rating compares less than 1 or greater than 5. -/
def validateRating (rating : JSNum) : Except String Unit :=
  if rating.ltb (.num 1) || rating.gtb (.num 5) then
    Except.error "Rating should be an integer between 1 and 5."
  else Except.ok ()

/-- getProduct of the source: query, never mutates the store. -/
def getProduct (s : Store) (id : String) : CallResult Product × Store :=
  match storeGet s id with
  | none => (.err (notFoundMsg id), s)
  | some product => (.ok product, s)

/-- addProduct of the source.  The generated uuid and the host time
ic.time() are external inputs and appear as explicit arguments. -/
def addProduct (s : Store) (uuid : String) (now : ℕ) (pl : ProductPayload) :
    CallResult Product × Store :=
  if pl.name = "" ∨ pl.description = "" ∨ pl.URL = "" then
    (.err "Missing required fields", s)
  else
    let product : Product :=
      { id := uuid, Ratings := [], created_at := now, updated_at := none,
        name := pl.name, description := pl.description, URL := pl.URL }
    (.ok product, storeInsert s product.id product)

/-- calculateAverageRating of the source: reduce with initial value 0 is
a left fold, then division by the length and parseFloat(toFixed(2)). -/
def calculateAverageRating (s : Store) (id : String) : CallResult JSNum × Store :=
  match storeGet s id with
  | none => (.err (notFoundMsg id), s)
  | some product =>
    if product.Ratings.length = 0 then (.ok (.num 0), s)
    else
      let sum := product.Ratings.foldl JSNum.add (.num 0)
      (.ok (jsToFixed2 (sum.div (.num (product.Ratings.length : ℚ)))), s)

/-- rateProduct of the source: lookup, then validateRating (whose throw
aborts the call before any write), then write-back of the record with
the rating appended. -/
def rateProduct (s : Store) (id : String) (rating : JSNum) :
    CallResult Product × Store :=
  match storeGet s id with
  | none => (.err "Product not found.", s)
  | some product =>
    match validateRating rating with
    | .error msg => (.fault msg, s)
    | .ok _ =>
      let updatedProduct : Product :=
        { product with Ratings := product.Ratings ++ [rating] }
      (.ok updatedProduct, storeInsert s id updatedProduct)

/-- updateProduct of the source: overlays the payload fields, stamps
updated_at with the host time, and writes back under product.id (the
id field of the looked-up record). -/
def updateProduct (s : Store) (id : String) (pl : ProductPayload) (now : ℕ) :
    CallResult Product × Store :=
  match storeGet s id with
  | none => (.err (notFoundMsg id), s)
  | some product =>
    let updatedProduct : Product :=
      { product with name := pl.name, description := pl.description,
                     URL := pl.URL, updated_at := some now }
    (.ok updatedProduct, storeInsert s product.id updatedProduct)

/-- deleteProduct of the source: remove, NotFound if nothing was bound. -/
def deleteProduct (s : Store) (id : String) : CallResult Product × Store :=
  match storeRemove s id with
  | (s1, none) => (.err (notFoundMsg id), s1)
  | (s1, some p) => (.ok p, s1)

/-- Stores reachable from the empty store by any sequence of the four
mutating canister methods (the two queries and calculateAverageRating
never change the store). -/
inductive Reachable : Store → Prop where
  | empty : Reachable []
  | add (s : Store) (uuid : String) (now : ℕ) (pl : ProductPayload) :
      Reachable s → Reachable (addProduct s uuid now pl).2
  | rate (s : Store) (id : String) (r : JSNum) :
      Reachable s → Reachable (rateProduct s id r).2
  | update (s : Store) (id : String) (pl : ProductPayload) (now : ℕ) :
      Reachable s → Reachable (updateProduct s id pl now).2
  | del (s : Store) (id : String) :
      Reachable s → Reachable (deleteProduct s id).2

/-- Keys of the store, in order. -/
def storeKeys (s : Store) : List String := s.map Prod.fst

/-- The store binds each key at most once. -/
def storeKeysNodup (s : Store) : Prop := (storeKeys s).Nodup

/-! ### Basic lemmas about the store operations -/

lemma storeGet_cons (k1 : String) (v1 : Product) (tl : Store) (id : String) :
    storeGet ((k1, v1) :: tl) id = if k1 = id then some v1 else storeGet tl id := rfl

lemma storeInsert_cons (k1 : String) (v1 : Product) (tl : Store) (id : String)
    (p : Product) :
    storeInsert ((k1, v1) :: tl) id p =
      if k1 = id then (id, p) :: tl else (k1, v1) :: storeInsert tl id p := rfl

lemma storeRemove_cons (k1 : String) (v1 : Product) (tl : Store) (id : String) :
    storeRemove ((k1, v1) :: tl) id =
      if k1 = id then (tl, some v1)
      else ((k1, v1) :: (storeRemove tl id).1, (storeRemove tl id).2) := rfl

lemma storeGet_insert_self (s : Store) (k : String) (v : Product) :
    storeGet (storeInsert s k v) k = some v := by
  induction s with
  | nil => simp [storeInsert, storeGet]
  | cons hd tl ih =>
    obtain ⟨k1, v1⟩ := hd
    by_cases h : k1 = k
    · rw [storeInsert_cons, if_pos h, storeGet_cons, if_pos rfl]
    · rw [storeInsert_cons, if_neg h, storeGet_cons, if_neg h, ih]

lemma storeGet_insert_ne (s : Store) (k : String) (v : Product) (k1 : String)
    (h : k1 ≠ k) : storeGet (storeInsert s k v) k1 = storeGet s k1 := by
  induction s with
  | nil =>
    rw [show storeInsert [] k v = [(k, v)] from rfl, storeGet_cons,
      if_neg (fun hk : k = k1 => h hk.symm)]
  | cons hd tl ih =>
    obtain ⟨k2, v2⟩ := hd
    by_cases hk : k2 = k
    · subst hk
      rw [storeInsert_cons, if_pos rfl, storeGet_cons, storeGet_cons,
        if_neg (fun hc : k2 = k1 => h hc.symm), if_neg (fun hc : k2 = k1 => h hc.symm)]
    · rw [storeInsert_cons, if_neg hk, storeGet_cons, storeGet_cons]
      by_cases hk1 : k2 = k1
      · rw [if_pos hk1, if_pos hk1]
      · rw [if_neg hk1, if_neg hk1, ih]

lemma mem_storeInsert {x : String × Product} {s : Store} {k : String} {v : Product}
    (h : x ∈ storeInsert s k v) : x = (k, v) ∨ x ∈ s := by
  induction s with
  | nil => simpa [storeInsert] using h
  | cons hd tl ih =>
    obtain ⟨k1, v1⟩ := hd
    by_cases hk : k1 = k
    · simp only [storeInsert, if_pos hk, List.mem_cons] at h
      rcases h with h | h
      · exact Or.inl h
      · exact Or.inr (List.mem_cons_of_mem _ h)
    · simp only [storeInsert, if_neg hk, List.mem_cons] at h
      rcases h with h | h
      · exact Or.inr (h ▸ List.mem_cons_self _ _)
      · rcases ih h with h1 | h1
        · exact Or.inl h1
        · exact Or.inr (List.mem_cons_of_mem _ h1)

lemma mem_storeKeys_insert {a : String} {s : Store} {k : String} {v : Product}
    (h : a ∈ storeKeys (storeInsert s k v)) : a = k ∨ a ∈ storeKeys s := by
  simp only [storeKeys, List.mem_map] at h
  obtain ⟨x, hx, rfl⟩ := h
  rcases mem_storeInsert hx with h1 | h1
  · exact Or.inl (by simp [h1])
  · exact Or.inr (by simp [storeKeys]; exact ⟨x.2, by simpa using h1⟩)

lemma storeKeysNodup_insert {s : Store} (k : String) (v : Product)
    (h : storeKeysNodup s) : storeKeysNodup (storeInsert s k v) := by
  induction s with
  | nil => simp [storeInsert, storeKeysNodup, storeKeys]
  | cons hd tl ih =>
    obtain ⟨k1, v1⟩ := hd
    simp only [storeKeysNodup, storeKeys, List.map_cons, List.nodup_cons] at h
    by_cases hk : k1 = k
    · subst hk
      simpa [storeInsert, storeKeysNodup, storeKeys] using h
    · have htl := ih h.2
      simp only [storeInsert, if_neg hk, storeKeysNodup, storeKeys, List.map_cons,
        List.nodup_cons]
      refine ⟨fun hmem => ?_, htl⟩
      rcases mem_storeKeys_insert (by simpa [storeKeys] using hmem) with h1 | h1
      · exact hk h1
      · exact h.1 (by simpa [storeKeys] using h1)

lemma storeGet_eq_none_of_not_mem_keys {s : Store} {k : String}
    (h : k ∉ storeKeys s) : storeGet s k = none := by
  induction s with
  | nil => rfl
  | cons hd tl ih =>
    obtain ⟨k1, v1⟩ := hd
    simp only [storeKeys, List.map_cons, List.mem_cons] at h
    push_neg at h
    rw [storeGet_cons, if_neg (fun hk : k1 = k => h.1 hk.symm)]
    exact ih (by simpa [storeKeys] using h.2)

lemma mem_of_storeGet_eq_some {s : Store} {k : String} {p : Product}
    (h : storeGet s k = some p) : (k, p) ∈ s := by
  induction s with
  | nil => simp [storeGet] at h
  | cons hd tl ih =>
    obtain ⟨k1, v1⟩ := hd
    by_cases hk : k1 = k
    · subst hk
      rw [storeGet_cons, if_pos rfl] at h
      obtain rfl : v1 = p := by injection h
      exact List.mem_cons_self _ _
    · rw [storeGet_cons, if_neg hk] at h
      exact List.mem_cons_of_mem _ (ih h)

lemma storeRemove_of_get_none {s : Store} {k : String}
    (h : storeGet s k = none) : storeRemove s k = (s, none) := by
  induction s with
  | nil => rfl
  | cons hd tl ih =>
    obtain ⟨k1, v1⟩ := hd
    by_cases hk : k1 = k
    · rw [storeGet_cons, if_pos hk] at h
      exact absurd h (by simp)
    · rw [storeGet_cons, if_neg hk] at h
      rw [storeRemove_cons, if_neg hk, ih h]

lemma storeRemove_snd (s : Store) (k : String) :
    (storeRemove s k).2 = storeGet s k := by
  induction s with
  | nil => rfl
  | cons hd tl ih =>
    obtain ⟨k1, v1⟩ := hd
    by_cases hk : k1 = k
    · rw [storeRemove_cons, if_pos hk, storeGet_cons, if_pos hk]
    · rw [storeRemove_cons, if_neg hk, storeGet_cons, if_neg hk]
      exact ih

lemma storeRemove_fst_sublist (s : Store) (k : String) :
    (storeRemove s k).1.Sublist s := by
  induction s with
  | nil => simp [storeRemove]
  | cons hd tl ih =>
    obtain ⟨k1, v1⟩ := hd
    by_cases hk : k1 = k
    · rw [storeRemove_cons, if_pos hk]
      exact List.sublist_cons_self _ _
    · rw [storeRemove_cons, if_neg hk]
      exact ih.cons₂ (k1, v1)

lemma storeKeysNodup_remove {s : Store} (k : String)
    (h : storeKeysNodup s) : storeKeysNodup (storeRemove s k).1 :=
  ((storeRemove_fst_sublist s k).map Prod.fst).nodup h

lemma storeGet_remove_self {s : Store} (k : String) (h : storeKeysNodup s) :
    storeGet (storeRemove s k).1 k = none := by
  induction s with
  | nil => rfl
  | cons hd tl ih =>
    obtain ⟨k1, v1⟩ := hd
    simp only [storeKeysNodup, storeKeys, List.map_cons, List.nodup_cons] at h
    by_cases hk : k1 = k
    · subst hk
      rw [storeRemove_cons, if_pos rfl]
      exact storeGet_eq_none_of_not_mem_keys h.1
    · rw [storeRemove_cons, if_neg hk, storeGet_cons, if_neg hk]
      exact ih h.2

/-! ### Shape of the store after each mutating operation -/

lemma addProduct_snd (s : Store) (uuid : String) (now : ℕ) (pl : ProductPayload) :
    (addProduct s uuid now pl).2 = s ∨
    (addProduct s uuid now pl).2 =
      storeInsert s uuid ⟨uuid, pl.name, pl.description, pl.URL, [], now, none⟩ := by
  unfold addProduct
  split
  · exact Or.inl rfl
  · exact Or.inr rfl

lemma okRating_of_validateRating_ok {r : JSNum} (h : validateRating r = Except.ok ()) :
    JSNum.ltb r (.num 1) = false ∧ JSNum.gtb r (.num 5) = false := by
  unfold validateRating at h
  by_cases hc : (JSNum.ltb r (.num 1) || JSNum.gtb r (.num 5)) = true
  · rw [if_pos hc] at h
    exact absurd h (by simp)
  · simp only [Bool.or_eq_true, not_or, Bool.not_eq_true] at hc
    exact hc

lemma validateRating_error_of {r : JSNum}
    (h : JSNum.ltb r (.num 1) = true ∨ JSNum.gtb r (.num 5) = true) :
    validateRating r = Except.error "Rating should be an integer between 1 and 5." := by
  unfold validateRating
  rw [if_pos (by simpa [Bool.or_eq_true] using h)]

lemma validateRating_ok_of {r : JSNum}
    (h1 : JSNum.ltb r (.num 1) = false) (h5 : JSNum.gtb r (.num 5) = false) :
    validateRating r = Except.ok () := by
  unfold validateRating
  rw [if_neg (by simp [h1, h5])]

lemma rateProduct_snd (s : Store) (id : String) (r : JSNum) :
    (rateProduct s id r).2 = s ∨
    ∃ p, storeGet s id = some p ∧ validateRating r = Except.ok () ∧
      (rateProduct s id r).2 = storeInsert s id { p with Ratings := p.Ratings ++ [r] } := by
  unfold rateProduct
  cases hget : storeGet s id with
  | none => exact Or.inl rfl
  | some p =>
    cases hv : validateRating r with
    | error msg => exact Or.inl rfl
    | ok u => exact Or.inr ⟨p, rfl, rfl, rfl⟩

lemma updateProduct_snd (s : Store) (id : String) (pl : ProductPayload) (now : ℕ) :
    (updateProduct s id pl now).2 = s ∨
    ∃ p, storeGet s id = some p ∧
      (updateProduct s id pl now).2 =
        storeInsert s p.id { p with name := pl.name, description := pl.description,
                                    URL := pl.URL, updated_at := some now } := by
  unfold updateProduct
  cases hget : storeGet s id with
  | none => exact Or.inl rfl
  | some p => exact Or.inr ⟨p, rfl, rfl⟩

lemma deleteProduct_snd (s : Store) (id : String) :
    (deleteProduct s id).2 = (storeRemove s id).1 := by
  unfold deleteProduct
  cases hrem : storeRemove s id with
  | mk s1 o => cases o <;> rfl

lemma deleteProduct_not_found {s : Store} {id : String}
    (h : storeGet s id = none) :
    deleteProduct s id = (.err (notFoundMsg id), s) := by
  unfold deleteProduct
  rw [storeRemove_of_get_none h]

/-! ### Invariants of reachable stores -/

lemma reachable_nodup {s : Store} (h : Reachable s) : storeKeysNodup s := by
  induction h with
  | empty => exact List.nodup_nil
  | add s uuid now pl _ ih =>
    rcases addProduct_snd s uuid now pl with he | he
    · rw [he]; exact ih
    · rw [he]; exact storeKeysNodup_insert _ _ ih
  | rate s id r _ ih =>
    rcases rateProduct_snd s id r with he | ⟨p, _, _, he⟩
    · rw [he]; exact ih
    · rw [he]; exact storeKeysNodup_insert _ _ ih
  | update s id pl now _ ih =>
    rcases updateProduct_snd s id pl now with he | ⟨p, _, he⟩
    · rw [he]; exact ih
    · rw [he]; exact storeKeysNodup_insert _ _ ih
  | del s id _ ih =>
    rw [deleteProduct_snd]
    exact storeKeysNodup_remove id ih

lemma reachable_entry_id {s : Store} (h : Reachable s) :
    ∀ kp ∈ s, (kp : String × Product).2.id = kp.1 := by
  induction h with
  | empty => intro kp hkp; simp at hkp
  | add s uuid now pl _ ih =>
    intro kp hkp
    rcases addProduct_snd s uuid now pl with he | he
    · exact ih kp (he ▸ hkp)
    · rcases mem_storeInsert (he ▸ hkp) with h1 | h1
      · rw [h1]
      · exact ih kp h1
  | rate s id r _ ih =>
    intro kp hkp
    rcases rateProduct_snd s id r with he | ⟨p, hget, _, he⟩
    · exact ih kp (he ▸ hkp)
    · rcases mem_storeInsert (he ▸ hkp) with h1 | h1
      · rw [h1]
        exact ih (id, p) (mem_of_storeGet_eq_some hget)
      · exact ih kp h1
  | update s id pl now _ ih =>
    intro kp hkp
    rcases updateProduct_snd s id pl now with he | ⟨p, hget, he⟩
    · exact ih kp (he ▸ hkp)
    · rcases mem_storeInsert (he ▸ hkp) with h1 | h1
      · rw [h1]
      · exact ih kp h1
  | del s id _ ih =>
    intro kp hkp
    rw [deleteProduct_snd] at hkp
    exact ih kp ((storeRemove_fst_sublist s id).subset hkp)

lemma reachable_ratings {s : Store} (h : Reachable s) :
    ∀ kp ∈ s, ∀ r ∈ (kp : String × Product).2.Ratings,
      JSNum.ltb r (.num 1) = false ∧ JSNum.gtb r (.num 5) = false := by
  induction h with
  | empty => intro kp hkp; simp at hkp
  | add s uuid now pl _ ih =>
    intro kp hkp r hr
    rcases addProduct_snd s uuid now pl with he | he
    · exact ih kp (he ▸ hkp) r hr
    · rcases mem_storeInsert (he ▸ hkp) with h1 | h1
      · rw [h1] at hr
        simp at hr
      · exact ih kp h1 r hr
  | rate s id r0 _ ih =>
    intro kp hkp r hr
    rcases rateProduct_snd s id r0 with he | ⟨p, hget, hv, he⟩
    · exact ih kp (he ▸ hkp) r hr
    · rcases mem_storeInsert (he ▸ hkp) with h1 | h1
      · rw [h1] at hr
        simp only [List.mem_append, List.mem_singleton] at hr
        rcases hr with hr | rfl
        · exact ih (id, p) (mem_of_storeGet_eq_some hget) r hr
        · exact okRating_of_validateRating_ok hv
      · exact ih kp h1 r hr
  | update s id pl now _ ih =>
    intro kp hkp r hr
    rcases updateProduct_snd s id pl now with he | ⟨p, hget, he⟩
    · exact ih kp (he ▸ hkp) r hr
    · rcases mem_storeInsert (he ▸ hkp) with h1 | h1
      · rw [h1] at hr
        exact ih (id, p) (mem_of_storeGet_eq_some hget) r hr
      · exact ih kp h1 r hr
  | del s id _ ih =>
    intro kp hkp r hr
    rw [deleteProduct_snd] at hkp
    exact ih kp ((storeRemove_fst_sublist s id).subset hkp) r hr

/-! ### Concrete fixtures used by the witnesses and the counterexample -/

def pay0 : ProductPayload := ⟨"n", "d", "u"⟩

def demoProd : Product := ⟨"a", "n", "d", "u", [], 0, none⟩

def demoStore : Store := (addProduct [] "a" 0 pay0).2

lemma demoStore_eq : demoStore = [("a", demoProd)] := by
  unfold demoStore addProduct
  rw [if_neg (by simp [pay0])]
  rfl

lemma demoStore_get : storeGet demoStore "a" = some demoProd := by
  rw [demoStore_eq, storeGet_cons, if_pos rfl]

lemma demoStore_reachable : Reachable demoStore :=
  Reachable.add [] "a" 0 pay0 Reachable.empty

def prod45 : Product := ⟨"a", "n", "d", "u", [.num 4, .num 5], 0, none⟩

def demoStore45 : Store := [("a", prod45)]

def prod122 : Product := ⟨"a", "n", "d", "u", [.num 1, .num 2, .num 2], 0, none⟩

def demoStore122 : Store := [("a", prod122)]

lemma toFixed2_nine_halves : toFixed2 (9 / 2) = 9 / 2 := by
  unfold toFixed2
  norm_num

lemma toFixed2_five_thirds : toFixed2 (5 / 3) = 167 / 100 := by
  unfold toFixed2
  norm_num [Int.floor_eq_iff]

/-! ### The claims -/

/-- C1: for every stored product id and every rating comparing below 1 or
above 5, rateProduct throws the range fault (an unrecoverable fault, not a
recoverable Result.Err) and returns the store unchanged, the looked-up
record still stored intact, because validateRating runs before the
write-back. -/
theorem claim1 (s : Store) (id : String) (p : Product) (r : JSNum)
    (hp : storeGet s id = some p)
    (hr : JSNum.ltb r (.num 1) = true ∨ JSNum.gtb r (.num 5) = true) :
    rateProduct s id r =
      (.fault "Rating should be an integer between 1 and 5.", s)
    ∧ storeGet (rateProduct s id r).2 id = some p := by
  have hv := validateRating_error_of hr
  unfold rateProduct
  rw [hp, hv]
  exact ⟨rfl, hp⟩

/-- C1 witness: rating 6 on the demo store faults and leaves the store as
it was. -/
theorem claim1_witness :
    storeGet demoStore "a" = some demoProd
    ∧ JSNum.gtb (.num 6) (.num 5) = true
    ∧ rateProduct demoStore "a" (.num 6) =
        (.fault "Rating should be an integer between 1 and 5.", demoStore)
    ∧ storeGet (rateProduct demoStore "a" (.num 6)).2 "a" = some demoProd := by
  have hgt : JSNum.gtb (.num 6) (.num 5) = true := by
    simp only [JSNum.gtb, decide_eq_true_eq]
    norm_num
  have h := claim1 demoStore "a" demoProd (.num 6) demoStore_get (Or.inr hgt)
  exact ⟨demoStore_get, hgt, h.1, h.2⟩

/-- C2: on an id absent from the store, getProduct, rateProduct (for any
rating), calculateAverageRating, updateProduct (for any payload) and
deleteProduct all return a recoverable NotFound error and leave the store
unchanged. -/
theorem claim2 (s : Store) (id : String) (h : storeGet s id = none) :
    getProduct s id = (.err (notFoundMsg id), s)
    ∧ (∀ r, rateProduct s id r = (.err "Product not found.", s))
    ∧ calculateAverageRating s id = (.err (notFoundMsg id), s)
    ∧ (∀ pl now, updateProduct s id pl now = (.err (notFoundMsg id), s))
    ∧ deleteProduct s id = (.err (notFoundMsg id), s) := by
  refine ⟨?_, fun r => ?_, ?_, fun pl now => ?_, ?_⟩
  · unfold getProduct
    rw [h]
  · unfold rateProduct
    rw [h]
  · unfold calculateAverageRating
    rw [h]
  · unfold updateProduct
    rw [h]
  · exact deleteProduct_not_found h

/-- C2 witness: all five operations on the empty store and id b return
NotFound and leave the store empty. -/
theorem claim2_witness :
    getProduct [] "b" = (.err (notFoundMsg "b"), [])
    ∧ rateProduct [] "b" (.num 6) = (.err "Product not found.", [])
    ∧ calculateAverageRating [] "b" = (.err (notFoundMsg "b"), [])
    ∧ updateProduct [] "b" pay0 7 = (.err (notFoundMsg "b"), [])
    ∧ deleteProduct [] "b" = (.err (notFoundMsg "b"), []) := by
  have h := claim2 [] "b" rfl
  exact ⟨h.1, h.2.1 (.num 6), h.2.2.1, h.2.2.2.1 pay0 7, h.2.2.2.2⟩

/-- C8: addProduct with an empty name, description or URL returns the
validation error and inserts nothing: the store after the call is the
store before it. -/
theorem claim8 (s : Store) (uuid : String) (now : ℕ) (pl : ProductPayload)
    (h : pl.name = "" ∨ pl.description = "" ∨ pl.URL = "") :
    addProduct s uuid now pl = (.err "Missing required fields", s) := by
  unfold addProduct
  rw [if_pos h]

/-- C8 witness: an empty name is rejected on the demo store. -/
theorem claim8_witness :
    addProduct demoStore "z" 9 ⟨"", "d", "u"⟩ =
      (.err "Missing required fields", demoStore) :=
  claim8 demoStore "z" 9 ⟨"", "d", "u"⟩ (Or.inl rfl)

/-- C9: deleting a stored id returns exactly the stored record and removes
the key, so a following getProduct returns NotFound and a second
deleteProduct also returns NotFound (leaving the store as after the first
delete). -/
theorem claim9 (s : Store) (id : String) (p : Product)
    (hnd : storeKeysNodup s) (hp : storeGet s id = some p) :
    deleteProduct s id = (.ok p, (storeRemove s id).1)
    ∧ getProduct (deleteProduct s id).2 id =
        (.err (notFoundMsg id), (deleteProduct s id).2)
    ∧ deleteProduct (deleteProduct s id).2 id =
        (.err (notFoundMsg id), (deleteProduct s id).2) := by
  have h2 : (storeRemove s id).2 = some p := by rw [storeRemove_snd, hp]
  have hsr : storeRemove s id = ((storeRemove s id).1, some p) := by rw [← h2]
  have hnone : storeGet (deleteProduct s id).2 id = none := by
    rw [deleteProduct_snd]
    exact storeGet_remove_self id hnd
  refine ⟨?_, ?_, ?_⟩
  · conv_lhs => unfold deleteProduct
    rw [hsr]
  · unfold getProduct
    rw [hnone]
  · exact deleteProduct_not_found hnone

/-- C9 witness: deleting id a from the demo store returns the demo record,
then getProduct and a second delete both report NotFound. -/
theorem claim9_witness :
    storeKeysNodup demoStore
    ∧ deleteProduct demoStore "a" = (.ok demoProd, (storeRemove demoStore "a").1)
    ∧ getProduct (deleteProduct demoStore "a").2 "a" =
        (.err (notFoundMsg "a"), (deleteProduct demoStore "a").2)
    ∧ deleteProduct (deleteProduct demoStore "a").2 "a" =
        (.err (notFoundMsg "a"), (deleteProduct demoStore "a").2) := by
  have hnd : storeKeysNodup demoStore := by
    rw [demoStore_eq]
    simp [storeKeysNodup, storeKeys]
  have h := claim9 demoStore "a" demoProd hnd demoStore_get
  exact ⟨hnd, h.1, h.2.1, h.2.2⟩

/-- C3: addProduct on an all-non-empty payload returns a record with the
fresh id, the payload fields, empty Ratings, created_at set to the call
time and no updated_at; exactly that record is inserted under the
returned id, and getProduct on the new store returns it unchanged. -/
theorem claim3 (s : Store) (uuid : String) (now : ℕ) (pl : ProductPayload)
    (hn : pl.name ≠ "") (hd : pl.description ≠ "") (hu : pl.URL ≠ "") :
    addProduct s uuid now pl =
      (.ok ⟨uuid, pl.name, pl.description, pl.URL, [], now, none⟩,
        storeInsert s uuid ⟨uuid, pl.name, pl.description, pl.URL, [], now, none⟩)
    ∧ getProduct (addProduct s uuid now pl).2 uuid =
        (.ok ⟨uuid, pl.name, pl.description, pl.URL, [], now, none⟩,
          (addProduct s uuid now pl).2) := by
  have hcond : ¬(pl.name = "" ∨ pl.description = "" ∨ pl.URL = "") := by
    push_neg
    exact ⟨hn, hd, hu⟩
  have h1 : addProduct s uuid now pl =
      (.ok ⟨uuid, pl.name, pl.description, pl.URL, [], now, none⟩,
        storeInsert s uuid ⟨uuid, pl.name, pl.description, pl.URL, [], now, none⟩) := by
    unfold addProduct
    rw [if_neg hcond]
  refine ⟨h1, ?_⟩
  unfold getProduct
  rw [h1, storeGet_insert_self]

/-- C3 witness: adding the demo payload to the empty store also answers
the subsequent lookup with the identical record. -/
theorem claim3_witness :
    addProduct [] "a" 0 pay0 =
      (.ok ⟨"a", "n", "d", "u", [], 0, none⟩,
        storeInsert [] "a" ⟨"a", "n", "d", "u", [], 0, none⟩)
    ∧ getProduct (addProduct [] "a" 0 pay0).2 "a" =
        (.ok ⟨"a", "n", "d", "u", [], 0, none⟩, (addProduct [] "a" 0 pay0).2) :=
  claim3 [] "a" 0 pay0 (by simp [pay0]) (by simp [pay0]) (by simp [pay0])

lemma foldl_add_map_num (qs : List ℚ) (a : ℚ) :
    (qs.map JSNum.num).foldl JSNum.add (JSNum.num a) = .num (a + qs.sum) := by
  induction qs generalizing a with
  | nil => simp
  | cons q qs ih =>
    simp only [List.map_cons, List.foldl_cons, JSNum.add, ih, List.sum_cons]
    rw [add_assoc]

/-- C4: for a stored product, calculateAverageRating never changes the
store, returns 0 on an empty Ratings sequence, and otherwise (for a
sequence of numeric ratings) returns the arithmetic mean of the ratings
rounded to two decimal places. -/
theorem claim4 (s : Store) (id : String) (p : Product)
    (hp : storeGet s id = some p) :
    (calculateAverageRating s id).2 = s
    ∧ (p.Ratings = [] → (calculateAverageRating s id).1 = .ok (.num 0))
    ∧ (∀ qs : List ℚ, p.Ratings = qs.map JSNum.num → qs ≠ [] →
        (calculateAverageRating s id).1 =
          .ok (.num (toFixed2 (qs.sum / qs.length)))) := by
  refine ⟨?_, ?_, ?_⟩
  · unfold calculateAverageRating
    rw [hp]
    dsimp only
    by_cases hl : p.Ratings.length = 0
    · rw [if_pos hl]
    · rw [if_neg hl]
  · intro hnil
    unfold calculateAverageRating
    rw [hp]
    dsimp only
    rw [if_pos (by rw [hnil]; rfl)]
  · intro qs hqs hne
    have hlen : p.Ratings.length = qs.length := by rw [hqs, List.length_map]
    have hlen0 : qs.length ≠ 0 := fun h => hne (List.length_eq_zero.mp h)
    unfold calculateAverageRating
    rw [hp]
    dsimp only
    rw [if_neg (by rw [hlen]; exact hlen0)]
    simp only [hqs, foldl_add_map_num, zero_add, List.length_map, JSNum.div,
      if_neg (by exact_mod_cast hlen0 : ((qs.length : ℚ) ≠ 0)), jsToFixed2]

/-- C4 witness: ratings 4 and 5 average to 4.5, ratings 1, 2, 2 average to
1.67, and the store is untouched. -/
theorem claim4_witness :
    (calculateAverageRating demoStore45 "a").1 = .ok (.num (9 / 2))
    ∧ (calculateAverageRating demoStore122 "a").1 = .ok (.num (167 / 100))
    ∧ (calculateAverageRating demoStore122 "a").2 = demoStore122
    ∧ (calculateAverageRating demoStore "a").1 = .ok (.num 0) := by
  have hg45 : storeGet demoStore45 "a" = some prod45 := by
    rw [show demoStore45 = [("a", prod45)] from rfl, storeGet_cons, if_pos rfl]
  have hg122 : storeGet demoStore122 "a" = some prod122 := by
    rw [show demoStore122 = [("a", prod122)] from rfl, storeGet_cons, if_pos rfl]
  have h45 := claim4 demoStore45 "a" prod45 hg45
  have h122 := claim4 demoStore122 "a" prod122 hg122
  have h0 := claim4 demoStore "a" demoProd demoStore_get
  refine ⟨?_, ?_, h122.1, h0.2.1 rfl⟩
  · have := h45.2.2 [4, 5] (by simp [prod45]) (by simp)
    rw [this]
    norm_num [toFixed2_nine_halves]
  · have := h122.2.2 [1, 2, 2] (by simp [prod122]) (by simp)
    rw [this]
    have hq : (([1, 2, 2] : List ℚ).sum / (([1, 2, 2] : List ℚ).length : ℚ)) = 5 / 3 := by
      norm_num
    rw [hq, toFixed2_five_thirds]

/-- C6: rating a stored product with a number in the range appends the
rating to the Ratings sequence, leaves every other field of the record as
it was, writes the updated record back under the same id, and returns it. -/
theorem claim6 (s : Store) (id : String) (p : Product) (q : ℚ)
    (hp : storeGet s id = some p) (h1 : 1 ≤ q) (h5 : q ≤ 5) :
    rateProduct s id (.num q) =
      (.ok { p with Ratings := p.Ratings ++ [.num q] },
        storeInsert s id { p with Ratings := p.Ratings ++ [.num q] })
    ∧ storeGet (rateProduct s id (.num q)).2 id =
        some { p with Ratings := p.Ratings ++ [.num q] } := by
  have hlt : JSNum.ltb (.num q) (.num 1) = false := by
    simp only [JSNum.ltb, decide_eq_false_iff_not, not_lt]
    exact h1
  have hgt : JSNum.gtb (.num q) (.num 5) = false := by
    simp only [JSNum.gtb, gt_iff_lt, decide_eq_false_iff_not, not_lt]
    exact h5
  have hv := validateRating_ok_of hlt hgt
  unfold rateProduct
  rw [hp, hv]
  exact ⟨rfl, storeGet_insert_self _ _ _⟩

/-- C6 witness: rating 3 on the demo store appends 3 and keeps the other
fields. -/
theorem claim6_witness :
    rateProduct demoStore "a" (.num 3) =
      (.ok { demoProd with Ratings := demoProd.Ratings ++ [.num 3] },
        storeInsert demoStore "a" { demoProd with Ratings := demoProd.Ratings ++ [.num 3] })
    ∧ storeGet (rateProduct demoStore "a" (.num 3)).2 "a" =
        some { demoProd with Ratings := demoProd.Ratings ++ [.num 3] } :=
  claim6 demoStore "a" demoProd 3 demoStore_get (by norm_num) (by norm_num)

/-- C7: updating a stored product replaces name, description and URL with
the payload values and stamps updated_at with the call time, while keeping
id, created_at and Ratings; the record is written back under the same id
and every other key of the store is untouched. -/
theorem claim7 (s : Store) (id : String) (p : Product) (pl : ProductPayload)
    (now : ℕ) (hs : Reachable s) (hp : storeGet s id = some p) :
    updateProduct s id pl now =
      (.ok { p with name := pl.name, description := pl.description,
                    URL := pl.URL, updated_at := some now },
        storeInsert s id { p with name := pl.name, description := pl.description,
                                  URL := pl.URL, updated_at := some now })
    ∧ storeGet (updateProduct s id pl now).2 id =
        some { p with name := pl.name, description := pl.description,
                      URL := pl.URL, updated_at := some now }
    ∧ (∀ k, k ≠ id → storeGet (updateProduct s id pl now).2 k = storeGet s k) := by
  have hid : p.id = id := reachable_entry_id hs (id, p) (mem_of_storeGet_eq_some hp)
  have h1 : updateProduct s id pl now =
      (.ok { p with name := pl.name, description := pl.description,
                    URL := pl.URL, updated_at := some now },
        storeInsert s id { p with name := pl.name, description := pl.description,
                                  URL := pl.URL, updated_at := some now }) := by
    unfold updateProduct
    rw [hp]
    dsimp only
    rw [hid]
  refine ⟨h1, ?_, fun k hk => ?_⟩
  · rw [h1]
    exact storeGet_insert_self _ _ _
  · rw [h1]
    exact storeGet_insert_ne _ _ _ _ hk

/-- C7 witness: updating the demo product overlays the new payload, stamps
updated_at, and leaves the absent key b absent. -/
theorem claim7_witness :
    updateProduct demoStore "a" ⟨"n2", "d2", "u2"⟩ 5 =
      (.ok { demoProd with name := "n2", description := "d2",
                           URL := "u2", updated_at := some 5 },
        storeInsert demoStore "a"
          { demoProd with name := "n2", description := "d2",
                          URL := "u2", updated_at := some 5 })
    ∧ storeGet (updateProduct demoStore "a" ⟨"n2", "d2", "u2"⟩ 5).2 "a" =
        some { demoProd with name := "n2", description := "d2",
                             URL := "u2", updated_at := some 5 }
    ∧ storeGet (updateProduct demoStore "a" ⟨"n2", "d2", "u2"⟩ 5).2 "b" =
        storeGet demoStore "b" := by
  have h := claim7 demoStore "a" demoProd ⟨"n2", "d2", "u2"⟩ 5
    demoStore_reachable demoStore_get
  exact ⟨h.1, h.2.1, h.2.2 "b" (by simp)⟩

def prod25 : Product := ⟨"a", "n", "d", "u", [.num (5 / 2)], 0, none⟩

def demoStore25 : Store := (rateProduct demoStore "a" (.num (5 / 2))).2

lemma demoStore25_reachable : Reachable demoStore25 :=
  Reachable.rate demoStore "a" (.num (5 / 2)) demoStore_reachable

lemma demoStore25_eq : demoStore25 = [("a", prod25)] := by
  unfold demoStore25 rateProduct
  rw [demoStore_get,
    validateRating_ok_of
      (by simp only [JSNum.ltb, decide_eq_false_iff_not, not_lt]; norm_num)
      (by simp only [JSNum.gtb, gt_iff_lt, decide_eq_false_iff_not, not_lt]; norm_num)]
  dsimp only
  rw [demoStore_eq, storeInsert_cons, if_pos rfl]
  rfl

def prod3 : Product := ⟨"a", "n", "d", "u", [.num 3], 0, none⟩

def demoStore3 : Store := (rateProduct demoStore "a" (.num 3)).2

lemma demoStore3_reachable : Reachable demoStore3 :=
  Reachable.rate demoStore "a" (.num 3) demoStore_reachable

lemma demoStore3_eq : demoStore3 = [("a", prod3)] := by
  unfold demoStore3 rateProduct
  rw [demoStore_get,
    validateRating_ok_of
      (by simp only [JSNum.ltb, decide_eq_false_iff_not, not_lt]; norm_num)
      (by simp only [JSNum.gtb, gt_iff_lt, decide_eq_false_iff_not, not_lt]; norm_num)]
  dsimp only
  rw [demoStore_eq, storeInsert_cons, if_pos rfl]
  rfl

/-- C5 as stated is false on the code: the reachable store demoStore25,
produced by addProduct followed by rateProduct with 2.5, stores the
non-integral rating 2.5, because validateRating only compares against the
bounds and never checks integrality. -/
theorem claim5_counterexample :
    ¬ (∀ s : Store, Reachable s → ∀ kp ∈ s,
        ∀ r ∈ (kp : String × Product).2.Ratings,
          ∃ n : ℤ, r = JSNum.num (n : ℚ) ∧ 1 ≤ n ∧ n ≤ 5) := by
  intro hcl
  obtain ⟨n, hn, -, -⟩ :=
    hcl demoStore25 demoStore25_reachable ("a", prod25)
      (by rw [demoStore25_eq]; exact List.mem_cons_self _ _)
      (.num (5 / 2)) (by simp [prod25])
  have hq : (5 / 2 : ℚ) = (n : ℚ) := by injection hn
  have h2 : ((2 * n : ℤ) : ℚ) = ((5 : ℤ) : ℚ) := by push_cast; linarith
  have h3 : (2 * n : ℤ) = 5 := by exact_mod_cast h2
  omega

/-- C5 (amended): in every reachable store, every stored rating r
satisfies not (r < 1) and not (r > 5) under JavaScript numeric
comparison — every finite stored rating lies in [1,5], but it need not
be an integer (2.5 is storable) and NaN is storable as well, since both
comparisons are false on NaN. -/
theorem claim5_amended (s : Store) (hs : Reachable s) (id : String)
    (p : Product) (hp : storeGet s id = some p) (r : JSNum)
    (hr : r ∈ p.Ratings) :
    JSNum.ltb r (.num 1) = false ∧ JSNum.gtb r (.num 5) = false :=
  reachable_ratings hs (id, p) (mem_of_storeGet_eq_some hp) r hr

/-- C5 (amended) witness: the rating 3 stored in the reachable store
demoStore3 passes both comparisons. -/
theorem claim5_amended_witness :
    Reachable demoStore3
    ∧ storeGet demoStore3 "a" = some prod3
    ∧ JSNum.ltb (.num 3) (.num 1) = false ∧ JSNum.gtb (.num 3) (.num 5) = false := by
  have hg : storeGet demoStore3 "a" = some prod3 := by
    rw [demoStore3_eq, storeGet_cons, if_pos rfl]
  have h := claim5_amended demoStore3 demoStore3_reachable "a" prod3 hg
    (.num 3) (by simp [prod3])
  exact ⟨demoStore3_reachable, hg, h⟩

/-- C10: validateRating throws exactly when the rating compares less than
1 or greater than 5; hence for a stored id, rateProduct succeeds and
appends the rating both for every numeric rating in [1,5] (integral or
not, e.g. 2.5) and for NaN, on which both comparisons are false. -/
theorem claim10 (s : Store) (id : String) (p : Product) (q : ℚ)
    (hp : storeGet s id = some p) (h1 : 1 ≤ q) (h5 : q ≤ 5) :
    (∀ r : JSNum, (∃ msg, validateRating r = Except.error msg) ↔
        (JSNum.ltb r (.num 1) = true ∨ JSNum.gtb r (.num 5) = true))
    ∧ rateProduct s id (.num q) =
        (.ok { p with Ratings := p.Ratings ++ [.num q] },
          storeInsert s id { p with Ratings := p.Ratings ++ [.num q] })
    ∧ rateProduct s id .nan =
        (.ok { p with Ratings := p.Ratings ++ [.nan] },
          storeInsert s id { p with Ratings := p.Ratings ++ [.nan] }) := by
  refine ⟨fun r => ⟨?_, ?_⟩, ?_, ?_⟩
  · rintro ⟨msg, hmsg⟩
    by_contra hc
    simp only [not_or, Bool.not_eq_true] at hc
    rw [validateRating_ok_of hc.1 hc.2] at hmsg
    exact absurd hmsg (by simp)
  · intro h
    exact ⟨_, validateRating_error_of h⟩
  · have hlt : JSNum.ltb (.num q) (.num 1) = false := by
      simp only [JSNum.ltb, decide_eq_false_iff_not, not_lt]
      exact h1
    have hgt : JSNum.gtb (.num q) (.num 5) = false := by
      simp only [JSNum.gtb, gt_iff_lt, decide_eq_false_iff_not, not_lt]
      exact h5
    unfold rateProduct
    rw [hp, validateRating_ok_of hlt hgt]
  · unfold rateProduct
    rw [hp, validateRating_ok_of (show JSNum.ltb .nan (.num 1) = false from rfl)
      (show JSNum.gtb .nan (.num 5) = false from rfl)]

/-- C10 witness: on the demo store, the non-integral rating 2.5 and NaN
are both accepted and appended. -/
theorem claim10_witness :
    storeGet demoStore "a" = some demoProd
    ∧ (1 : ℚ) ≤ 5 / 2 ∧ (5 / 2 : ℚ) ≤ 5
    ∧ (rateProduct demoStore "a" (.num (5 / 2))).1 =
        .ok { demoProd with Ratings := demoProd.Ratings ++ [.num (5 / 2)] }
    ∧ (rateProduct demoStore "a" .nan).1 =
        .ok { demoProd with Ratings := demoProd.Ratings ++ [.nan] } := by
  have h := claim10 demoStore "a" demoProd (5 / 2) demoStore_get
    (by norm_num) (by norm_num)
  exact ⟨demoStore_get, by norm_num, by norm_num,
    congrArg Prod.fst h.2.1, congrArg Prod.fst h.2.2⟩

end ProductReview
